import Mathlib

/-!
Verification of the VK mass-sending bot (`src/index.js` and its variant
files) against its natural-language specification.

The development shallowly embeds the code: pure JS functions become Lean
functions over explicit inputs; the file-backed allow/block lists are
passed as explicit `List String` arguments (the JS functions load them
from disk at call time); the VK API is an oracle argument.
-/

namespace VkBot

/-- A community member record as returned by `groups.getMembers` with
`fields: first_name,last_name`: `{id, first_name, last_name}`. -/
structure Member where
  id : Nat
  first_name : String
  last_name : String
deriving DecidableEq, Repr

/-- Embedding of `filterUsers(users)` from `src/index.js` lines 181–198,
with the lists loaded by `loadAllowlist()` / `loadBlocklist()` made
explicit arguments.  The JS predicate is: if the allowlist is non-empty
and `String(user.id)` is not in the allowlist set, drop the user;
otherwise keep the user iff `String(user.id)` is not in the blocklist
set. -/
def filterUsers (users : List Member) (allowlist blocklist : List String) : List Member :=
  users.filter fun user =>
    let userIdStr := toString user.id
    if allowlist.length > 0 && !(allowlist.contains userIdStr) then
      false
    else
      !(blocklist.contains userIdStr)

/-- The recipient-filter policy as worded in the spec (§4.4): first gate
by the allow set (non-empty allow set retains exactly the members whose
stringified id is in it; empty allow set retains all), then remove every
member whose stringified id is in the block set. -/
def filterSpecTwoStage (users : List Member) (allowlist blocklist : List String) : List Member :=
  let afterAllow :=
    if allowlist.isEmpty then users
    else users.filter fun user => allowlist.contains (toString user.id)
  afterAllow.filter fun user => !(blocklist.contains (toString user.id))

theorem filterUsers_eq_two_stage (users : List Member) (allowlist blocklist : List String) :
    filterUsers users allowlist blocklist = filterSpecTwoStage users allowlist blocklist := by
  unfold filterUsers filterSpecTwoStage
  cases allowlist with
  | nil => simp
  | cons a as =>
    simp only [List.isEmpty_cons, if_neg, Bool.false_eq_true, not_false_iff, if_false,
      List.filter_filter]
    apply List.filter_congr
    intro u _
    simp only [List.length_cons, Nat.succ_eq_add_one]
    by_cases h : (a :: as).contains (toString u.id) <;> simp [h, Bool.and_comm]

theorem mem_filterUsers_iff (users : List Member) (allowlist blocklist : List String)
    (u : Member) :
    u ∈ filterUsers users allowlist blocklist ↔
      u ∈ users ∧ (allowlist = [] ∨ toString u.id ∈ allowlist) ∧ toString u.id ∉ blocklist := by
  unfold filterUsers
  rw [List.mem_filter]
  cases allowlist with
  | nil => simp
  | cons a as =>
    constructor
    · rintro ⟨hu, hp⟩
      refine ⟨hu, ?_, ?_⟩ <;>
      · simp only [List.length_cons] at hp
        by_cases hA : (a :: as).contains (toString u.id) <;> simp_all
    · rintro ⟨hu, hA, hB⟩
      rcases hA with h | h
      · exact absurd h (List.cons_ne_nil a as)
      · simp_all

/-- One `groups.getMembers` response: `{count, items}`. -/
structure Page where
  count : Nat
  items : List Member
deriving Repr

/-- The fixed page size used by `gatherUserIds` (`const count = 1000`). -/
def pageSize : Nat := 1000

/-- The iterations of the `while (true)` loop of `gatherUserIds`
(`src/index.js` lines 221–237) after the first one, that is, with the
termination bound `total` already captured from the first response.  At
the top of each such iteration the loop has just executed
`offset += count; if (offset >= total) break;`, so it runs the body again
exactly when `offset < total`: it requests the page at `offset`, appends
its items, and moves `offset` forward by `pageSize`.  Returns the list of
offsets requested and the members accumulated by these iterations. -/
def gatherLoop (resp : Nat → Page) (total offset : Nat) : List Nat × List Member :=
  if total ≤ offset then ([], [])
  else
    let d := resp offset
    let rest := gatherLoop resp total (offset + pageSize)
    (offset :: rest.1, d.items ++ rest.2)
termination_by total - offset
decreasing_by simp only [pageSize]; omega

/-- Embedding of `gatherUserIds` (`src/index.js` lines 214–245).  The VK
API is the oracle `resp`, mapping a request offset to the `{count, items}`
response.  The loop body always runs at least once (it requests offset 0),
captures `total = data.count` from that first response only
(`if (total === null) total = data.count`), and then keeps paging while
`offset < total`.  Returns the list of requested offsets and the
accumulated member list. -/
def gatherUserIds (resp : Nat → Page) : List Nat × List Member :=
  let d := resp 0
  let total := d.count
  let rest := gatherLoop resp total pageSize
  (0 :: rest.1, d.items ++ rest.2)

theorem gatherLoop_closed_form (resp : Nat → Page) (total : Nat) :
    ∀ n offset, total - offset = n →
      gatherLoop resp total offset =
        ((List.range ((total - offset + pageSize - 1) / pageSize)).map
            (fun i => offset + pageSize * i),
         ((List.range ((total - offset + pageSize - 1) / pageSize)).map
            (fun i => (resp (offset + pageSize * i)).items)).flatten) := by
  intro n
  induction n using Nat.strong_induction_on with
  | _ n ih =>
    intro offset hn
    rw [gatherLoop]
    by_cases h : total ≤ offset
    · have hz : (total - offset + pageSize - 1) / pageSize = 0 := by
        simp only [pageSize]; omega
      rw [if_pos h, hz]
      simp
    · have hlt : offset < total := by omega
      have hrec := ih (total - (offset + pageSize))
        (by simp only [pageSize]; omega) (offset + pageSize) rfl
      have hk : (total - offset + pageSize - 1) / pageSize =
          (total - (offset + pageSize) + pageSize - 1) / pageSize + 1 := by
        simp only [pageSize]; omega
      simp only [h, if_false]
      rw [hrec, hk, List.range_succ_eq_map, Prod.ext_iff]
      refine ⟨?_, ?_⟩
      · simp only [List.map_cons, List.map_map, List.cons.injEq]
        refine ⟨by omega, ?_⟩
        apply List.map_congr_left
        intro i _
        simp only [Function.comp_apply, pageSize]
        omega
      · simp only [List.map_cons, List.flatten_cons, List.map_map]
        have e0 : offset + pageSize * 0 = offset := by omega
        rw [e0]
        congr 1
        congr 1
        apply List.map_congr_left
        intro i _
        simp only [Function.comp_apply]
        congr 2
        simp only [pageSize]
        omega

/-- The number of page requests `gatherUserIds` issues, as a function of
the total count captured from the first response: one request always
happens, and then one more per remaining block of `pageSize` members. -/
def expectedRequests (total : Nat) : Nat :=
  max 1 ((total + pageSize - 1) / pageSize)

theorem gatherUserIds_closed_form (resp : Nat → Page) :
    gatherUserIds resp =
      ((List.range (expectedRequests (resp 0).count)).map (fun i => pageSize * i),
       ((List.range (expectedRequests (resp 0).count)).map
          (fun i => (resp (pageSize * i)).items)).flatten) := by
  have hloop := gatherLoop_closed_form resp (resp 0).count ((resp 0).count - pageSize)
    pageSize rfl
  have hk : expectedRequests (resp 0).count =
      ((resp 0).count - pageSize + pageSize - 1) / pageSize + 1 := by
    unfold expectedRequests
    simp only [pageSize]
    omega
  simp only [gatherUserIds, hloop]
  rw [hk, List.range_succ_eq_map, Prod.ext_iff]
  refine ⟨?_, ?_⟩
  · simp only [List.map_cons, List.map_map, List.cons.injEq]
    refine ⟨by omega, ?_⟩
    apply List.map_congr_left
    intro i _
    simp only [Function.comp_apply, pageSize]
    omega
  · simp only [List.map_cons, List.flatten_cons, List.map_map]
    have h0 : pageSize * 0 = 0 := by omega
    rw [h0]
    congr 1
    congr 1
    apply List.map_congr_left
    intro i _
    simp only [Function.comp_apply]
    congr 2
    simp only [pageSize]
    omega

/-! ### Dispatch queue (rate limiter)

`src/index.js` line 34 constructs `new PQueue({ intervalCap: 30,
interval: 1000 })` and line 309 awaits `queue.onIdle()`. -/

/-- The rate-window capacity configured at `src/index.js` line 34:
`intervalCap: 30` admitted starts per `interval: 1000` ms window. -/
def intervalCap : Nat := 30

/-- Modelled from the spec: the dispatch queue itself is the external
`p-queue` dependency, whose implementation is not part of this
repository; only its construction (`src/index.js` line 34) and its
`add`/`onIdle` calls appear in the source.  Per spec §3/§4.1 the queue
state is a rate window (a fixed time bucket of capacity `intervalCap`
starts per interval, reset each interval tick) plus the set of admitted
tasks, here tracked by counters: tasks admitted but not started
(`pending`), started but not finished (`running`), starts in the current
window (`startedInWindow`), and lifetime totals (`admitted`,
`finished`). -/
structure QueueState where
  pending : Nat
  running : Nat
  startedInWindow : Nat
  admitted : Nat
  finished : Nat
deriving DecidableEq, Repr

/-- The initial queue state: freshly constructed, nothing admitted. -/
def queueInit : QueueState :=
  ⟨0, 0, 0, 0, 0⟩

/-- Observable queue transitions: `admit` (a `queue.add` call), `start`
(the queue releases an admitted task to execution), `finish` (a task
reaches a terminal state), and `tick` (an interval boundary, resetting
the rate window). -/
inductive QueueOp where
  | enqueue
  | start
  | finish
  | tick
deriving DecidableEq, Repr

/-- Modelled from the spec: one transition of the dispatch queue.
`start` is enabled only when a task is pending and the current window's
start count is below `intervalCap`; `finish` only when a task is
running; `tick` resets the window counter.  Disabled transitions yield
`none`. -/
def queueStep (s : QueueState) (op : QueueOp) : Option QueueState :=
  match op with
  | .enqueue =>
      some { s with pending := s.pending + 1, admitted := s.admitted + 1 }
  | .start =>
      if s.pending > 0 ∧ s.startedInWindow < intervalCap then
        some { s with pending := s.pending - 1, running := s.running + 1,
                      startedInWindow := s.startedInWindow + 1 }
      else
        none
  | .finish =>
      if s.running > 0 then
        some { s with running := s.running - 1, finished := s.finished + 1 }
      else
        none
  | .tick =>
      some { s with startedInWindow := 0 }

/-- Run a sequence of queue transitions from a state; `none` if any
transition was disabled. -/
def queueExec (s : QueueState) : List QueueOp → Option QueueState
  | [] => some s
  | op :: rest => (queueStep s op).bind (fun s' => queueExec s' rest)

/-- `onIdle()` resolves exactly when the queue holds no pending and no
running task. -/
def queueIdle (s : QueueState) : Prop :=
  s.pending = 0 ∧ s.running = 0

instance (s : QueueState) : Decidable (queueIdle s) := by
  unfold queueIdle; infer_instance

/-- Number of task starts in a transition sequence. -/
def countStarts (ops : List QueueOp) : Nat :=
  ops.count QueueOp.start

theorem queueExec_starts_bound (ops : List QueueOp) :
    ∀ s s', queueExec s ops = some s' → QueueOp.tick ∉ ops →
      countStarts ops + s.startedInWindow ≤ intervalCap + s.startedInWindow ∧
      countStarts ops ≤ intervalCap - s.startedInWindow := by
  induction ops with
  | nil =>
    intro s s' _ _
    simp [countStarts]
  | cons op rest ih =>
    intro s s' hexec hnotick
    have hop : op ≠ QueueOp.tick := fun h => hnotick (h ▸ List.mem_cons_self op rest)
    have hrest : QueueOp.tick ∉ rest := fun h => hnotick (List.mem_cons_of_mem op h)
    cases op with
    | enqueue =>
      simp only [queueExec, queueStep, Option.bind_eq_bind, Option.some_bind] at hexec
      have := (ih _ _ hexec hrest).2
      simp only [countStarts, List.count_cons] at *
      simp_all
      omega
    | start =>
      simp only [queueExec, queueStep] at hexec
      by_cases hcond : s.pending > 0 ∧ s.startedInWindow < intervalCap
      · rw [if_pos hcond] at hexec
        simp only [Option.bind_eq_bind, Option.some_bind] at hexec
        have := (ih _ _ hexec hrest).2
        simp only [countStarts, List.count_cons] at *
        simp_all
        omega
      · rw [if_neg hcond] at hexec
        simp at hexec
    | finish =>
      simp only [queueExec, queueStep] at hexec
      by_cases hcond : s.running > 0
      · rw [if_pos hcond] at hexec
        simp only [Option.bind_eq_bind, Option.some_bind] at hexec
        have := (ih _ _ hexec hrest).2
        simp only [countStarts, List.count_cons] at *
        simp_all
        omega
      · rw [if_neg hcond] at hexec
        simp at hexec
    | tick => exact absurd rfl hop

theorem queueExec_accounting (ops : List QueueOp) :
    ∀ s s', queueExec s ops = some s' →
      s'.admitted + s.pending + s.running + s.finished =
        s.admitted + s'.pending + s'.running + s'.finished := by
  induction ops with
  | nil =>
    intro s s' h
    simp only [queueExec, Option.some_inj] at h
    subst h
    ring
  | cons op rest ih =>
    intro s s' hexec
    cases op with
    | enqueue =>
      simp only [queueExec, queueStep, Option.bind_eq_bind, Option.some_bind] at hexec
      have := ih _ _ hexec
      simp only at this
      omega
    | start =>
      simp only [queueExec, queueStep] at hexec
      by_cases hcond : s.pending > 0 ∧ s.startedInWindow < intervalCap
      · rw [if_pos hcond] at hexec
        simp only [Option.bind_eq_bind, Option.some_bind] at hexec
        have := ih _ _ hexec
        simp only at this
        omega
      · rw [if_neg hcond] at hexec
        simp at hexec
    | finish =>
      simp only [queueExec, queueStep] at hexec
      by_cases hcond : s.running > 0
      · rw [if_pos hcond] at hexec
        simp only [Option.bind_eq_bind, Option.some_bind] at hexec
        have := ih _ _ hexec
        simp only at this
        omega
      · rw [if_neg hcond] at hexec
        simp at hexec
    | tick =>
      simp only [queueExec, queueStep, Option.bind_eq_bind, Option.some_bind] at hexec
      have := ih _ _ hexec
      simp only at this
      omega

/-! ### Per-recipient send task (`broadcast`, `src/index.js` lines 280–308) -/

/-- Outcome of one `messages.send` API attempt: success, or an error
carrying the provider's numeric code and, for code 429, the optional
`err.data.parameters.retry_after` hint (in seconds). -/
inductive SendResult where
  | ok
  | err (code : Nat) (retryAfter : Option Nat)
deriving DecidableEq, Repr

/-- Observable steps of one recipient's queued task: a live
`messages.send` call (`apiSend n` is the n-th attempt), the
`setTimeout(…, retry_after * 1000)` suspension, or the dry-run log of a
simulated send. -/
inductive SendEvent where
  | apiSend (attempt : Nat)
  | waitSecs (r : Nat)
  | simulate
deriving DecidableEq, Repr

/-- Terminal state of one recipient's task. -/
inductive TaskResult where
  | success
  | permanentFailure
deriving DecidableEq, Repr

/-- Embedding of the task body queued per recipient by `broadcast`
(`src/index.js` lines 287–307).  `att n` is the result of the n-th
`sendMessage` attempt for this recipient.  In dry-run the body only logs
a simulated send (which cannot throw, so the catch block is
unreachable).  Live: attempt 0 is made; on success the task succeeds.
The retry gate is the JS *truthiness* test
`err.code === 429 && err.data?.parameters?.retry_after`: it passes only
when the hint is present **and** nonzero (a `retry_after` of `0` is
falsy, exactly like an absent one).  When it passes, the task awaits the
hinted delay and then re-issues exactly one retry, whose result (either
way) is terminal; when it fails — other code, absent hint, or zero
hint — the error is swallowed by the catch and is a permanent failure
for this recipient. -/
def sendTask (att : Nat → SendResult) (dryRun : Bool) : List SendEvent × TaskResult :=
  if dryRun then
    ([.simulate], .success)
  else
    match att 0 with
    | .ok => ([.apiSend 0], .success)
    | .err code retryAfter =>
      if code = 429 then
        match retryAfter with
        | some r =>
          if r = 0 then
            ([.apiSend 0], .permanentFailure)
          else
            match att 1 with
            | .ok => ([.apiSend 0, .waitSecs r, .apiSend 1], .success)
            | .err _ _ => ([.apiSend 0, .waitSecs r, .apiSend 1], .permanentFailure)
        | none => ([.apiSend 0], .permanentFailure)
      else
        ([.apiSend 0], .permanentFailure)

/-- Number of live `messages.send` calls in a task's event trace. -/
def countApiSends (events : List SendEvent) : Nat :=
  events.countP fun e =>
    match e with
    | .apiSend _ => true
    | _ => false

/-- Embedding of the dispatch phase of `broadcast` (`src/index.js` lines
280–308): one task is queued per filtered recipient, and each task's
fate depends only on that recipient's own attempt oracle — a failure of
one recipient's task does not remove or alter any other recipient's
task.  `atts u` is the attempt oracle for recipient `u`. -/
def broadcastTasks (atts : Member → Nat → SendResult)
    (users : List Member) (allowlist blocklist : List String) (dryRun : Bool) :
    List (Member × (List SendEvent × TaskResult)) :=
  (filterUsers users allowlist blocklist).map fun u => (u, sendTask (atts u) dryRun)

/-! ### Broadcast outcome counters

`src/index.js`'s `broadcast` tracks only `processed`; the variant with a
per-recipient permission check (`sendBroadcast` in the webhook variant,
`src/unnamed/part_001` lines 153–223) additionally tracks `skipped` and
reports `processed - skipped` as the number sent. -/

/-- The accumulated counters of one completed run:
`{processed, sent, skipped}` with `sent = processed - skipped` as
reported by the progress and final logs. -/
structure Outcome where
  processed : Nat
  sent : Nat
  skipped : Nat
deriving DecidableEq, Repr

/-- Embedding of `sendBroadcast` (`src/unnamed/part_001` lines 153–223)
as its final counter state.  For each recipient of the filtered list, in
live mode the code first consults `canSendMessage` (the
`messages.isMessagesFromGroupAllowed` permission check, `false` also when
the check itself fails); a recipient who has not allowed messages is
counted `skipped` and `processed`.  Every other path — dry-run simulated
send, successful live send, or the catch block after a failed live
send — increments `processed` exactly once.  The reported `sent` count is
`processed - skipped`. -/
def sendBroadcastOutcome (users : List Member) (allowlist blocklist : List String)
    (canSend : Nat → Bool) (dryRun : Bool) : Outcome :=
  let filtered := filterUsers users allowlist blocklist
  let step := fun (acc : Nat × Nat) (u : Member) =>
    if !dryRun && !(canSend u.id) then (acc.1 + 1, acc.2 + 1)
    else (acc.1 + 1, acc.2)
  let final := filtered.foldl step (0, 0)
  ⟨final.1, final.1 - final.2, final.2⟩

theorem sendBroadcastOutcome_counts (users : List Member)
    (allowlist blocklist : List String) (canSend : Nat → Bool) (dryRun : Bool) :
    sendBroadcastOutcome users allowlist blocklist canSend dryRun =
      ⟨(filterUsers users allowlist blocklist).length,
       (filterUsers users allowlist blocklist).length -
         (if dryRun then 0
          else (filterUsers users allowlist blocklist).countP fun u => !(canSend u.id)),
       (if dryRun then 0
        else (filterUsers users allowlist blocklist).countP fun u => !(canSend u.id))⟩ := by
  have key : ∀ (l : List Member) (p sk : Nat),
      l.foldl (fun (acc : Nat × Nat) (u : Member) =>
        if !dryRun && !(canSend u.id) then (acc.1 + 1, acc.2 + 1)
        else (acc.1 + 1, acc.2)) (p, sk) =
      (p + l.length, sk + l.countP fun u => !dryRun && !(canSend u.id)) := by
    intro l
    induction l with
    | nil => intro p sk; simp
    | cons u rest ih =>
      intro p sk
      simp only [List.foldl_cons, List.length_cons, List.countP_cons]
      by_cases hcond : (!dryRun && !(canSend u.id)) = true
      · rw [if_pos hcond, ih, hcond]
        simp only [if_true]
        refine Prod.ext (by simp; omega) (by simp; omega)
      · rw [if_neg hcond, ih]
        rw [Bool.not_eq_true] at hcond
        rw [hcond]
        simp only [Bool.false_eq_true, if_false]
        refine Prod.ext (by simp; omega) (by simp)
  have hcount : ((filterUsers users allowlist blocklist).countP
        fun u => !dryRun && !(canSend u.id)) =
      (if dryRun then 0
       else (filterUsers users allowlist blocklist).countP fun u => !(canSend u.id)) := by
    cases dryRun with
    | true => simp
    | false => simp
  simp only [sendBroadcastOutcome, key, hcount, Nat.zero_add]

/-! ### The `/broadcast` command handler (`src/index.js` lines 331–379) -/

/-- The distinguishable replies the `/broadcast` handler can produce,
paired with how many send tasks the run submits. -/
inductive CmdReply where
  | accessDenied
  | broadcastFailed (msg : String)
  | templateUnreadable
  | templateEmpty
  | completed (submitted : Nat)
deriving DecidableEq, Repr

/-- Embedding of the `/broadcast` command handler (`src/index.js` lines
331–379).  `gather` is the result of `gatherUserIds` (which throws on
enumeration failure); `templateFile` is the `readFileSync` result, `none`
when the read throws.  The handler returns early, submitting no send
task, when the sender is not an admin, enumeration failed, the template
file is unreadable, or the trimmed template is empty; only otherwise does
it call `broadcast`, which queues one send task per filtered
recipient. -/
def broadcastCommand (isAdminUser : Bool) (gather : Except String (List Member))
    (allowlist blocklist : List String) (templateFile : Option String) : CmdReply :=
  if !isAdminUser then .accessDenied
  else
    match gather with
    | .error msg => .broadcastFailed msg
    | .ok users =>
      match templateFile with
      | none => .templateUnreadable
      | some raw =>
        if raw.trim = "" then .templateEmpty
        else .completed (filterUsers users allowlist blocklist).length

/-- The number of send tasks a reply accounts for: zero unless the run
reached the dispatch phase. -/
def submittedTasks : CmdReply → Nat
  | .completed n => n
  | _ => 0

/-! ### List administration (`isValidUserId`, `addToBlocklist`,
`addToAllowlist`; `src/index.js` lines 46–49, 86–100, 151–165) -/

/-- The value of JavaScript's `Number(userId)` as the embedding sees it:
`NaN`, an integer, or some other number (a finite non-integer or an
infinity — everything for which `Number.isInteger` is `false` while
`isNaN` is). -/
inductive JsNumber where
  | nan
  | intVal (n : Int)
  | nonIntVal
deriving DecidableEq, Repr

/-- Embedding of `isValidUserId(userId)` (`src/index.js` lines 46–49):
`!isNaN(numericId) && numericId > 0 && Number.isInteger(numericId)`,
where `numericId = Number(userId)` is passed in as `num`. -/
def isValidUserId (num : JsNumber) : Bool :=
  match num with
  | .intVal n => decide (0 < n)
  | _ => false

/-- Embedding of `addToBlocklist(userId)` (`src/index.js` lines 86–100).
`num` is `Number(userId)`, `userIdStr` is `String(userId)`, and
`blocklist` is the stored list at call time.  Returns the JS result
(thrown error or boolean) together with the stored list after the call:
the throw happens before the list is touched; a valid id is appended
exactly when not already present. -/
def addToBlocklist (num : JsNumber) (userIdStr : String) (blocklist : List String) :
    Except String Bool × List String :=
  if !isValidUserId num then
    (.error "Invalid user ID format", blocklist)
  else if !(blocklist.contains userIdStr) then
    (.ok true, blocklist ++ [userIdStr])
  else
    (.ok false, blocklist)

/-- Embedding of `addToAllowlist(userId)` (`src/index.js` lines 151–165),
identical in structure to `addToBlocklist` but over the allowlist
file. -/
def addToAllowlist (num : JsNumber) (userIdStr : String) (allowlist : List String) :
    Except String Bool × List String :=
  if !isValidUserId num then
    (.error "Invalid user ID format", allowlist)
  else if !(allowlist.contains userIdStr) then
    (.ok true, allowlist ++ [userIdStr])
  else
    (.ok false, allowlist)

/-! ### Claim theorems -/

/-- Claim C1: for every member list and allow/block lists, `filterUsers`
returns exactly the members that pass allow-gating then block removal —
with a non-empty allow set only members whose stringified id is in it are
retained (with an empty allow set all are), and from that result every
member whose id is in the block set is removed; in particular a member
whose id is in both sets is absent (block takes precedence over
allow). -/
theorem filterUsers_allow_gate_then_block
    (users : List Member) (allowlist blocklist : List String) :
    filterUsers users allowlist blocklist = filterSpecTwoStage users allowlist blocklist ∧
    (∀ u : Member, u ∈ filterUsers users allowlist blocklist →
      toString u.id ∉ blocklist) ∧
    (∀ u : Member, toString u.id ∈ allowlist → toString u.id ∈ blocklist →
      u ∉ filterUsers users allowlist blocklist) := by
  refine ⟨filterUsers_eq_two_stage users allowlist blocklist, ?_, ?_⟩
  · intro u hu
    exact ((mem_filterUsers_iff users allowlist blocklist u).mp hu).2.2
  · intro u _ hB hu
    exact ((mem_filterUsers_iff users allowlist blocklist u).mp hu).2.2 hB

/-- Claim C1 witness: at a concrete input, the member with id 5, present
in both the allow and the block list, is absent from the filtered
result. -/
theorem filterUsers_allow_gate_then_block_witness :
    (⟨5, "A", "B"⟩ : Member) ∉
      filterUsers [⟨5, "A", "B"⟩, ⟨6, "C", "D"⟩] ["5", "6"] ["5"] :=
  (filterUsers_allow_gate_then_block [⟨5, "A", "B"⟩, ⟨6, "C", "D"⟩] ["5", "6"] ["5"]).2.2
    ⟨5, "A", "B"⟩ (by decide) (by decide)

/-- Claim C9: filtering with an empty allow list and an empty block list
is the identity. -/
theorem filterUsers_empty_identity (users : List Member) :
    filterUsers users [] [] = users := by
  unfold filterUsers
  simp

/-- The member-page oracle of the pagination test scenario: every
response reports `count = 2500` and carries 1000 member records. -/
def respScenario2500 : Nat → Page :=
  fun _ => ⟨2500, List.replicate 1000 ⟨1, "", ""⟩⟩

/-- Claim C2: the member enumerator captures the total from the first
page response only, issues its page requests at offsets 0, 1000, 2000, …
(`expectedRequests total` of them, i.e. until the accumulated offset
reaches the captured total), and appends each requested page's items in
offset order; its result is unchanged under any mid-run change of the
reported total (it depends only on the first response's count and the
pages' items); with a first response of count 2500 it issues exactly the
3 requests at offsets 0, 1000 and 2000. -/
theorem gatherUserIds_pagination :
    (∀ resp : Nat → Page,
      gatherUserIds resp =
        ((List.range (expectedRequests (resp 0).count)).map (fun i => pageSize * i),
         ((List.range (expectedRequests (resp 0).count)).map
            (fun i => (resp (pageSize * i)).items)).flatten)) ∧
    (∀ resp resp' : Nat → Page, (resp 0).count = (resp' 0).count →
      (∀ o, (resp o).items = (resp' o).items) →
      gatherUserIds resp = gatherUserIds resp') ∧
    (gatherUserIds respScenario2500).1 = [0, 1000, 2000] := by
  refine ⟨gatherUserIds_closed_form, ?_, ?_⟩
  · intro resp resp' hcount hitems
    rw [gatherUserIds_closed_form resp, gatherUserIds_closed_form resp', hcount]
    refine Prod.ext rfl ?_
    simp only
    congr 1
    apply List.map_congr_left
    intro i _
    exact hitems (pageSize * i)
  · rw [gatherUserIds_closed_form respScenario2500]
    have h3 : expectedRequests (respScenario2500 0).count = 3 := by decide
    rw [h3]
    decide

/-- Claim C2 witness: the closed form instantiated at the concrete
scenario oracle gives exactly three requests. -/
theorem gatherUserIds_pagination_witness :
    (gatherUserIds respScenario2500).1.length = 3 := by
  have h := gatherUserIds_pagination.2.2
  rw [h]
  decide

/-- Claim C8: for every finite total count reported by the provider,
member enumeration terminates after finitely many pages — it issues
exactly `max 1 ⌈total / 1000⌉` page requests regardless of how many
items each response actually carries (in particular even when the last
page is short or empty). -/
theorem gatherUserIds_request_count (resp : Nat → Page) :
    (gatherUserIds resp).1.length = expectedRequests (resp 0).count ∧
    expectedRequests (resp 0).count =
      max 1 (((resp 0).count + pageSize - 1) / pageSize) := by
  constructor
  · rw [gatherUserIds_closed_form resp]
    simp
  · rfl

theorem countApiSends_sendTask_le_two (att : Nat → SendResult) (dryRun : Bool) :
    countApiSends (sendTask att dryRun).1 ≤ 2 := by
  cases dryRun with
  | true => simp [sendTask, countApiSends]
  | false =>
    cases h0 : att 0 with
    | ok => simp [sendTask, h0, countApiSends]
    | err c ra =>
      by_cases hc : c = 429
      · subst hc
        cases ra with
        | none => simp [sendTask, h0, countApiSends]
        | some r =>
          by_cases hr : r = 0
          · simp [sendTask, h0, hr, countApiSends]
          · cases h1 : att 1 with
            | ok => simp [sendTask, h0, h1, hr, countApiSends]
            | err c2 ra2 => simp [sendTask, h0, h1, hr, countApiSends]
      · simp [sendTask, h0, hc, countApiSends]

/-- An oracle whose first attempt fails with `{code: 429}` and a
`retry_after` hint that is present but zero — a falsy value under the
retry gate `err.code === 429 && err.data?.parameters?.retry_after`. -/
def attThrottleZero : Nat → SendResult :=
  fun n => if n = 0 then .err 429 (some 0) else .ok

/-- Claim C3 counterexample: at a 429 failure carrying the hint
`retry_after: 0` the task issues no retry at all — a single send and a
permanent failure — because the JS truthy guard treats the zero hint as
absent, refuting the claim that every present hint leads to exactly one
retry. -/
theorem sendTask_zero_hint_no_retry :
    countApiSends (sendTask attThrottleZero false).1 = 1 ∧
    (sendTask attThrottleZero false).1 = [.apiSend 0] ∧
    (sendTask attThrottleZero false).2 = .permanentFailure := by
  decide

/-- Claim C3 (amended): when a recipient's first live send fails with
code 429 and a *nonzero* `retry_after` hint of `r` seconds (the JS guard
is a truthiness test, so a zero hint is treated as absent and triggers no
retry), the task's trace is exactly one send, then the hinted wait, then
exactly one retry — the retry is issued only after the wait; a
successful retry makes the task succeed and a failed retry is a
permanent failure for that recipient; no oracle ever makes a task issue
more than two sends; and the dispatch loop queues one task per filtered
recipient regardless of any task's failure, so a failed retry never
aborts the run. -/
theorem sendTask_throttle_retry (att : Nat → SendResult) (r : Nat)
    (h0 : att 0 = .err 429 (some r)) (hr : r ≠ 0) :
    (sendTask att false).1 = [.apiSend 0, .waitSecs r, .apiSend 1] ∧
    (att 1 = .ok → (sendTask att false).2 = .success) ∧
    (∀ c ra, att 1 = .err c ra → (sendTask att false).2 = .permanentFailure) ∧
    (∀ att' : Nat → SendResult, countApiSends (sendTask att' false).1 ≤ 2) ∧
    (∀ (atts : Member → Nat → SendResult) (users : List Member)
       (allowlist blocklist : List String),
      (broadcastTasks atts users allowlist blocklist false).length =
        (filterUsers users allowlist blocklist).length) := by
  refine ⟨?_, ?_, ?_, fun att' => countApiSends_sendTask_le_two att' false, ?_⟩
  · cases h1 : att 1 with
    | ok => simp [sendTask, h0, h1, hr]
    | err c2 ra2 => simp [sendTask, h0, h1, hr]
  · intro h1
    simp [sendTask, h0, h1, hr]
  · intro c ra h1
    simp [sendTask, h0, h1, hr]
  · intro atts users allowlist blocklist
    simp [broadcastTasks]

/-- The concrete throttle scenario of the spec's testable property: the
first attempt fails with `{code: 429, retry_after: 3}`, the retry
succeeds. -/
def attThrottleOnce : Nat → SendResult :=
  fun n => if n = 0 then .err 429 (some 3) else .ok

/-- Claim C3 witness: the concrete throttled-once oracle yields the
send–wait–retry trace and overall success. -/
theorem sendTask_throttle_retry_witness :
    (sendTask attThrottleOnce false).1 =
      [.apiSend 0, .waitSecs 3, .apiSend 1] ∧
    (sendTask attThrottleOnce false).2 = .success := by
  have h := sendTask_throttle_retry attThrottleOnce 3 rfl (by decide)
  exact ⟨h.1, h.2.1 rfl⟩

/-- Claim C6: in dry-run mode every recipient's task records exactly the
simulated send — it never issues a live `messages.send` call and never
performs a retry-after-throttle wait. -/
theorem dry_run_never_sends (att : Nat → SendResult) :
    sendTask att true = ([.simulate], .success) ∧
    (∀ (atts : Member → Nat → SendResult) (users : List Member)
       (allowlist blocklist : List String)
       (entry : Member × (List SendEvent × TaskResult)),
      entry ∈ broadcastTasks atts users allowlist blocklist true →
      entry.2.1 = [.simulate] ∧ countApiSends entry.2.1 = 0 ∧
      (∀ r, SendEvent.waitSecs r ∉ entry.2.1)) := by
  constructor
  · simp [sendTask]
  · intro atts users allowlist blocklist entry hmem
    unfold broadcastTasks at hmem
    rw [List.mem_map] at hmem
    obtain ⟨u, _, rfl⟩ := hmem
    refine ⟨by simp [sendTask], by simp [sendTask, countApiSends], ?_⟩
    intro r hr
    simp [sendTask] at hr

/-- Claim C6 witness: a concrete dry-run task entry carries only the
simulated-send event. -/
theorem dry_run_never_sends_witness :
    ((⟨1, "", ""⟩ : Member), ([SendEvent.simulate], TaskResult.success)).2.1 =
      [SendEvent.simulate] :=
  ((dry_run_never_sends (fun _ => .ok)).2 (fun _ _ => .ok) [⟨1, "", ""⟩] [] []
    (⟨1, "", ""⟩, ([SendEvent.simulate], TaskResult.success)) (by decide)).1

/-- Claim C4: the dispatch queue never starts more than `intervalCap`
(30) tasks within one rate-window interval — any valid transition
segment that begins at a window boundary and contains no interval tick
has at most 30 starts — and from the initial state the queue is idle
(`onIdle` resolves) exactly when every admitted task, counting all
admissions up to that point, has finished. -/
theorem queue_rate_window_and_drain :
    (∀ (s₀ s₁ : QueueState) (seg : List QueueOp),
      queueExec s₀ seg = some s₁ → QueueOp.tick ∉ seg →
      s₀.startedInWindow = 0 → countStarts seg ≤ intervalCap) ∧
    (∀ (ops : List QueueOp) (s : QueueState),
      queueExec queueInit ops = some s →
      (queueIdle s ↔ s.admitted = s.finished)) := by
  constructor
  · intro s₀ s₁ seg hexec hnotick h₀
    have hb := (queueExec_starts_bound seg s₀ s₁ hexec hnotick).2
    omega
  · intro ops s hexec
    have hacc := queueExec_accounting ops queueInit s hexec
    simp only [queueInit] at hacc
    unfold queueIdle
    omega

/-- Claim C4 witness: a concrete valid run — two admissions, two starts,
two completions, no tick — has at most 30 starts in its window, and its
final state is idle with all admitted tasks finished. -/
theorem queue_rate_window_and_drain_witness :
    countStarts [QueueOp.enqueue, QueueOp.enqueue, QueueOp.start, QueueOp.finish,
      QueueOp.start, QueueOp.finish] ≤ intervalCap ∧
    (queueIdle ⟨0, 0, 2, 2, 2⟩ ↔
      (⟨0, 0, 2, 2, 2⟩ : QueueState).admitted = (⟨0, 0, 2, 2, 2⟩ : QueueState).finished) :=
  ⟨queue_rate_window_and_drain.1 queueInit ⟨0, 0, 2, 2, 2⟩
      [QueueOp.enqueue, QueueOp.enqueue, QueueOp.start, QueueOp.finish,
        QueueOp.start, QueueOp.finish] (by decide) (by decide) rfl,
   queue_rate_window_and_drain.2
      [QueueOp.enqueue, QueueOp.enqueue, QueueOp.start, QueueOp.finish,
        QueueOp.start, QueueOp.finish] ⟨0, 0, 2, 2, 2⟩ (by decide)⟩

/-- The reference scenario's enumerated members: ids 1 through 25. -/
def users25 : List Member :=
  (List.range 25).map fun i => ⟨i + 1, "", ""⟩

/-- Claim C5: in the reference scenario — 25 enumerated members, empty
allow list, block list `{"5"}` — the filtered count is 24 and the
dispatch loop queues 24 tasks; the run's accumulated outcome counters
are `{processed: 24, sent: 24, skipped: 0}` in dry-run (for every
permission oracle, since dry-run never consults it), and
`{processed: 24, sent: 23, skipped: 1}` in live mode when exactly one
recipient's permission check returns false. -/
theorem broadcast_reference_scenario :
    (filterUsers users25 [] ["5"]).length = 24 ∧
    (∀ (atts : Member → Nat → SendResult) (dryRun : Bool),
      (broadcastTasks atts users25 [] ["5"] dryRun).length = 24) ∧
    (∀ canSend : Nat → Bool,
      sendBroadcastOutcome users25 [] ["5"] canSend true = ⟨24, 24, 0⟩) ∧
    sendBroadcastOutcome users25 [] ["5"] (fun id => id != 7) false = ⟨24, 23, 1⟩ := by
  have hlen : (filterUsers users25 [] ["5"]).length = 24 := by decide
  refine ⟨hlen, ?_, ?_, ?_⟩
  · intro atts dryRun
    simp [broadcastTasks, hlen]
  · intro canSend
    rw [sendBroadcastOutcome_counts]
    simp [hlen]
  · decide

/-- Claim C7: whenever the message template file is unreadable or its
trimmed content is empty, the `/broadcast` handler aborts the run before
any dispatch — zero send tasks are submitted, the result is never the
completed one, and for an admin whose enumeration succeeded the reply
distinguishes the unreadable-template and empty-template failures. -/
theorem broadcast_command_template_failure
    (isAdminUser : Bool) (gather : Except String (List Member))
    (allowlist blocklist : List String) (templateFile : Option String)
    (hbad : templateFile = none ∨ ∃ raw, templateFile = some raw ∧ raw.trim = "") :
    submittedTasks (broadcastCommand isAdminUser gather allowlist blocklist templateFile) = 0 ∧
    (∀ n, broadcastCommand isAdminUser gather allowlist blocklist templateFile ≠
      CmdReply.completed n) ∧
    (isAdminUser = true → ∀ users, gather = .ok users →
      (templateFile = none →
        broadcastCommand isAdminUser gather allowlist blocklist templateFile =
          .templateUnreadable) ∧
      (∀ raw, templateFile = some raw →
        broadcastCommand isAdminUser gather allowlist blocklist templateFile =
          .templateEmpty)) := by
  cases isAdminUser with
  | false =>
    refine ⟨rfl, ?_, ?_⟩
    · intro n h
      simp [broadcastCommand] at h
    · intro h
      exact absurd h (by simp)
  | true =>
    cases gather with
    | error msg =>
      refine ⟨rfl, ?_, ?_⟩
      · intro n h
        simp [broadcastCommand] at h
      · intro _ users hg
        exact absurd hg (by simp)
    | ok users =>
      rcases hbad with hnone | ⟨raw, hraw, htrim⟩
      · subst hnone
        refine ⟨rfl, ?_, ?_⟩
        · intro n h
          simp [broadcastCommand] at h
        · intro _ users' _
          refine ⟨fun _ => by simp [broadcastCommand], ?_⟩
          intro raw hraw
          exact absurd hraw (by simp)
      · subst hraw
        have hres : broadcastCommand true (.ok users) allowlist blocklist (some raw) =
            .templateEmpty := by
          simp [broadcastCommand, htrim]
        refine ⟨by rw [hres]; rfl, ?_, ?_⟩
        · intro n h
          rw [hres] at h
          exact CmdReply.noConfusion h
        · intro _ users' hg
          refine ⟨fun hn => absurd hn (by simp), ?_⟩
          intro raw' hraw'
          have : Except.ok (ε := String) users' = Except.ok users := by
            exact hg.symm
          cases this
          cases hraw'
          exact hres

/-- Claim C7 witness: with an admin sender, a successful enumeration of
one member, and an unreadable template file, zero send tasks are
submitted. -/
theorem broadcast_command_template_failure_witness :
    submittedTasks (broadcastCommand true (.ok [⟨1, "", ""⟩]) [] [] none) = 0 :=
  (broadcast_command_template_failure true (.ok [⟨1, "", ""⟩]) [] [] none
    (Or.inl rfl)).1

/-- Claim C10: `addToBlocklist` and `addToAllowlist` throw the
`Invalid user ID format` error exactly when `Number(userId)` is not a
positive integer, leaving the stored list unchanged in that case; for a
valid id they return `true` and append the id when it is not already
present, and return `false` leaving the list unchanged when it is. -/
theorem add_to_list_validation (num : JsNumber) (userIdStr : String)
    (stored : List String) :
    (isValidUserId num = true ↔ ∃ n : Int, num = .intVal n ∧ 0 < n) ∧
    ((addToBlocklist num userIdStr stored).1 = .error "Invalid user ID format" ↔
      isValidUserId num = false) ∧
    (isValidUserId num = false → (addToBlocklist num userIdStr stored).2 = stored) ∧
    (isValidUserId num = true → userIdStr ∉ stored →
      addToBlocklist num userIdStr stored = (.ok true, stored ++ [userIdStr])) ∧
    (isValidUserId num = true → userIdStr ∈ stored →
      addToBlocklist num userIdStr stored = (.ok false, stored)) ∧
    ((addToAllowlist num userIdStr stored).1 = .error "Invalid user ID format" ↔
      isValidUserId num = false) ∧
    (isValidUserId num = false → (addToAllowlist num userIdStr stored).2 = stored) ∧
    (isValidUserId num = true → userIdStr ∉ stored →
      addToAllowlist num userIdStr stored = (.ok true, stored ++ [userIdStr])) ∧
    (isValidUserId num = true → userIdStr ∈ stored →
      addToAllowlist num userIdStr stored = (.ok false, stored)) := by
  refine ⟨?_, ?_, ?_, ?_, ?_, ?_, ?_, ?_, ?_⟩
  · cases num with
    | nan => simp [isValidUserId]
    | intVal n => simp [isValidUserId]
    | nonIntVal => simp [isValidUserId]
  all_goals
    cases hv : isValidUserId num with
    | false =>
      simp [addToBlocklist, addToAllowlist, hv]
    | true =>
      by_cases hmem : userIdStr ∈ stored <;>
        simp [addToBlocklist, addToAllowlist, hv, hmem]

/-- Claim C10 witness: the concrete id string `"7"` (numeric value 7) is
appended to an empty blocklist with result `true`. -/
theorem add_to_list_validation_witness :
    addToBlocklist (.intVal 7) "7" [] = (.ok true, ["7"]) :=
  (add_to_list_validation (.intVal 7) "7" []).2.2.2.1 (by decide) (by decide)

end VkBot
